import Mathlib

/-!
Verification of the llama-parse PDF-to-RAG pipeline scripts.

Shallow embedding of the repository's core logic:
* `parse_pdfs_to_file` / `parse_pdfs_to_markdown` — idempotent PDF conversion
  with per-document error isolation and quota halting (src/llama-parse.py
  lines 122–196, src/unnamed/part_000 lines 18–88);
* `create_nodes_from_markdown` — chunking a converted document on the
  section delimiter (src/llama-parse.py lines 198–221);
* `process_query` / `process_query_response` — query handling
  (src/llama-parse.py lines 254–309);
* `main` of src/rag_process.py — working-directory reset.

Python strings are modelled as `List Char` (`Text`) so that `str.split`,
`str.strip` and concatenation have fully computable embeddings; file
systems are association lists from file name to content.
-/

/-- File content, the embedding of a Python `str` used as document text. -/
abbrev Text := List Char

/-- The section delimiter `"\n\n---\n\n"` written between converted segments
(src/llama-parse.py line 175) and used as the split boundary
(src/llama-parse.py line 209). -/
def sectionDelim : Text := '\n' :: '\n' :: '-' :: '-' :: '-' :: '\n' :: '\n' :: []

/-- `isPrefixList sep s` is true when `sep` is a prefix of `s`
(Boolean, fully computable). -/
def isPrefixList : List Char → List Char → Bool
  | [], _ => true
  | _ :: _, [] => false
  | a :: as, b :: bs => a == b && isPrefixList as bs

/-- Worker for `splitOnText`: scans the string left to right, cutting at each
leftmost non-overlapping occurrence of `sep`, exactly as Python's
`str.split(sep)` does for a non-empty separator.  `fuel` is an upper bound on
the number of characters still to scan, making the recursion structural (and
hence kernel-reducible); it never runs out when initialised to the length of
the input. -/
def splitGo (sep : List Char) : Nat → List Char → List Char → List (List Char)
  | _, [], cur => [cur.reverse]
  | 0, s, cur => [cur.reverse ++ s]
  | fuel + 1, c :: rest, cur =>
    if isPrefixList sep (c :: rest) then
      cur.reverse :: splitGo sep fuel (List.drop (sep.length - 1) rest) []
    else
      splitGo sep fuel rest (c :: cur)

/-- Embedding of Python `s.split(sep)` for a non-empty separator. -/
def splitOnText (sep : List Char) (s : List Char) : List (List Char) :=
  splitGo sep s.length s []

/-- Python whitespace characters relevant to `str.strip()` (the ASCII ones;
all inputs in this repository are covered by these). -/
def isPySpace (c : Char) : Bool :=
  c == ' ' || c == '\t' || c == '\n' || c == '\r' || c == '\x0b' || c == '\x0c'

/-- Embedding of the Python truthiness test `not section.strip()`:
`true` iff the string is empty or whitespace-only. -/
def isBlank (s : Text) : Bool := s.all isPySpace

/-- A `TextNode` as built by `create_nodes_from_markdown`
(src/llama-parse.py lines 212–218): text plus `source`/`section` metadata. -/
structure Chunk where
  source : String
  ordinal : Nat
  text : Text
deriving DecidableEq, Repr

/-- Per-file body of `create_nodes_from_markdown` (src/llama-parse.py lines
205–219, identically src/unnamed/part_000 lines 97–111): split the file
content on `"\n\n---\n\n"`, enumerate the resulting sections, and keep a node
for every section whose `strip()` is non-empty, carrying the pre-filter
enumeration index as its `section` metadata. -/
def create_nodes_from_content (source : String) (content : Text) : List Chunk :=
  let sections := splitOnText sectionDelim content
  (sections.enum.filter (fun p => !isBlank p.2)).map
    (fun p => { source := source, ordinal := p.1, text := p.2 })

/-! ## File-system model and the converted-output writer -/

/-- The output directory as an association list from file name to file
content; `fsWrite` models `open(..., "w")` followed by writing (later writes
shadow earlier ones), `fsFind` models path lookup / existence. -/
abbrev FS := List (String × Text)

/-- Look a file up by name (first match wins, matching the shadowing in
`fsWrite`). -/
def fsFind : FS → String → Option Text
  | [], _ => none
  | (n, v) :: rest, m => if m = n then some v else fsFind rest m

/-- Write (or overwrite) a file. -/
def fsWrite (fs : FS) (n : String) (v : Text) : FS := (n, v) :: fs

/-- The body written for one converted document: the loop
`for doc in documents: f.write(doc.text + "\n\n---\n\n")`
(src/llama-parse.py lines 174–175, src/unnamed/part_000 lines 79–80) —
every segment, including the last, is followed by the delimiter. -/
def renderSegments : List Text → Text
  | [] => []
  | s :: rest => s ++ sectionDelim ++ renderSegments rest

/-- Writing the converted output file for one source document: the file is
named `<stem><format>` (src/llama-parse.py line 169) and its body is
`renderSegments` of the converted segments (lines 173–175). -/
def writeConvertedFile (fs : FS) (stem fmt : String) (segs : List Text) : FS :=
  fsWrite fs (stem ++ fmt) (renderSegments segs)

/-- The spec's notion of "segments joined by the literal delimiter": the
delimiter appears between consecutive segments only (N−1 occurrences for N
segments).  Stated from the spec's words, for comparison with
`renderSegments`, the embedding of what the code writes. -/
def joinedByDelim (sep : Text) : List Text → Text
  | [] => []
  | [s] => s
  | s :: s' :: rest => s ++ sep ++ joinedByDelim sep (s' :: rest)

/-- Number of non-overlapping occurrences of `sep` in `s`, via the splitter
(`k` occurrences produce `k+1` parts). -/
def countOcc (sep s : Text) : Nat := (splitOnText sep s).length - 1

/-! ## Conversion batch (`parse_pdfs_to_file`, src/llama-parse.py 122–196) -/

/-- Result of one call to the external conversion collaborator
(`parser.load_data`): an ordered list of text segments, or a raised error
carrying its message string. -/
inductive ConvResult where
  | docs (segs : List Text)
  | err (msg : String)
deriving DecidableEq, Repr

/-- The message fragment the code matches to recognise quota exhaustion:
`"exceeded the maximum number of pages" in str(e)`
(src/llama-parse.py line 181). -/
def quotaNeedle : String := "exceeded the maximum number of pages"

/-- Embedding of the Python substring test `quotaNeedle in msg`. -/
def hasQuotaMsg (msg : String) : Bool :=
  (splitOnText quotaNeedle.toList msg.toList).length != 1

/-- State produced by the remaining-documents loop of `parse_pdfs_to_file`
(src/llama-parse.py lines 166–190): the file system after the run, the
output files appended, the documents for which the conversion collaborator
was actually invoked, and whether the quota branch (lines 181–186) fired. -/
structure BatchState where
  fs : FS
  outputs : List String
  attempted : List String
  quotaHalt : Bool
deriving Repr

/-- The `for pdf_file in remaining_pdfs` loop of `parse_pdfs_to_file`
(src/llama-parse.py lines 167–190): convert each document in order and write
its output file; on an error whose message contains `quotaNeedle`, `break`
out of the loop (lines 181–186); on any other error, `continue` with the
next document (lines 187–190).  Documents are identified by their stem. -/
def processRemaining (convert : String → ConvResult) (fmt : String) :
    List String → FS → BatchState
  | [], fs => { fs := fs, outputs := [], attempted := [], quotaHalt := false }
  | pdf :: rest, fs =>
    match convert pdf with
    | .docs segs =>
      let fs' := writeConvertedFile fs pdf fmt segs
      let r := processRemaining convert fmt rest fs'
      { fs := r.fs, outputs := (pdf ++ fmt) :: r.outputs,
        attempted := pdf :: r.attempted, quotaHalt := r.quotaHalt }
    | .err m =>
      if hasQuotaMsg m then
        { fs := fs, outputs := [], attempted := [pdf], quotaHalt := true }
      else
        let r := processRemaining convert fmt rest fs
        { fs := r.fs, outputs := r.outputs,
          attempted := pdf :: r.attempted, quotaHalt := r.quotaHalt }

/-! ## `ensure_converted` (src/unnamed/part_000 lines 63–86) -/

/-- Result of ensuring one document is converted: the descriptor (output
path) returned, the file system afterwards, and how many times the external
conversion collaborator was invoked. -/
structure EnsureResult where
  descriptor : String
  fs : FS
  conversionCalls : Nat
deriving Repr

/-- Per-document body of the `parse_pdfs_to_markdown` loop
(src/unnamed/part_000 lines 63–86): if `<stem>.md` already exists in the
output directory, reference it and skip parsing (lines 66–70); otherwise
invoke the conversion collaborator and persist the result (lines 73–85).
The set-difference precheck of `parse_pdfs_to_file`
(src/llama-parse.py lines 145–154) realises the same existence test
batch-wise. -/
def ensure_converted (convert : String → List Text) (fs : FS) (stem : String) :
    EnsureResult :=
  let name := stem ++ ".md"
  match fsFind fs name with
  | some _ => { descriptor := name, fs := fs, conversionCalls := 0 }
  | none =>
    { descriptor := name, fs := fsWrite fs name (renderSegments (convert stem)),
      conversionCalls := 1 }

/-! ## Retrieval and answer composition (src/llama-parse.py 223–309) -/

/-- A retrieved chunk reference with its relevance score, as returned by the
vector-index collaborator (a `source_node` with `score`).  Scores are
modelled as rationals. -/
structure ScoredChunk where
  ordinal : Nat
  text : Text
  score : Rat
deriving DecidableEq, Repr

/-- The retrieval ordering of the spec: descending score, ties broken by
ascending chunk ordinal. -/
def retrOrder (c d : ScoredChunk) : Prop :=
  d.score < c.score ∨ (c.score = d.score ∧ c.ordinal ≤ d.ordinal)

instance : DecidableRel retrOrder := fun c d => by
  unfold retrOrder; infer_instance

instance : IsTotal ScoredChunk retrOrder where
  total c d := by
    rcases lt_trichotomy c.score d.score with h | h | h
    · exact Or.inr (Or.inl h)
    · rcases Nat.le_total c.ordinal d.ordinal with h' | h'
      · exact Or.inl (Or.inr ⟨h, h'⟩)
      · exact Or.inr (Or.inr ⟨h.symm, h'⟩)
    · exact Or.inl (Or.inl h)

instance : IsTrans ScoredChunk retrOrder where
  trans a b c hab hbc := by
    rcases hab with hab | ⟨hab, hab'⟩
    · rcases hbc with hbc | ⟨hbc, _⟩
      · exact Or.inl (hbc.trans hab)
      · exact Or.inl (hbc ▸ hab)
    · rcases hbc with hbc | ⟨hbc, hbc'⟩
      · exact Or.inl (hab ▸ hbc)
      · exact Or.inr ⟨hab.trans hbc, hab'.trans hbc'⟩

/-- Modelled from the spec: `retrieve` of §4.3.  The retrieval algorithm
itself lives in the external `llama_index` library; the repository only
configures it (`similarity_top_k=15`, `filter_similarity_threshold=0.7`,
`query_mode="hybrid"`, src/llama-parse.py lines 232–237).  Per the spec,
`retrieve` requests `top_k` candidates from the index collaborator, drops
every candidate scoring below the similarity threshold, and returns the
survivors ordered by descending score with ties broken by ascending
ordinal. -/
def retrieve (index : String → Nat → List ScoredChunk) (queryText : String)
    (topK : Nat) (threshold : Rat) : List ScoredChunk :=
  let candidates := index queryText topK
  let kept := candidates.filter (fun c => decide (threshold ≤ c.score))
  List.insertionSort retrOrder kept

/-- An answer plus its cited chunks, the spec's `QueryResult`. -/
structure QueryResult where
  answer : String
  cited : List ScoredChunk
deriving Repr

/-- The fixed no-relevant-information message returned when retrieval comes
back empty (src/llama-parse.py line 304). -/
def notFoundMessage : String :=
  "無法找到相關資訊。請嘗試重新表述您的問題，或確認問題是否在文件範圍內。"

/-- Modelled from the spec: the generation-request template of §4.4 — the
chunk texts concatenated as context together with the question, filled into
the fixed instructional template (`DETAILED_RESPONSE_PROMPT`,
src/llama-parse.py lines 32–95, with `context` and `query` substituted). -/
def buildPrompt (queryText : String) (retrieved : List ScoredChunk) : String :=
  "Context: " ++ String.mk (renderSegments (retrieved.map (·.text)))
    ++ "\nQuestion: " ++ queryText

/-- Modelled from the spec: `compose` of §4.4.  In the repository, retrieval
and generation happen inside the single opaque external call
`query_engine.query` (src/llama-parse.py line 300), so the composer is not a
separate source function; per the spec, on an empty retrieved sequence it
returns the fixed not-found message with no citations and makes no
generation call, otherwise it invokes the generation collaborator on the
filled template.  The second component counts generation invocations. -/
def compose (generate : String → String) (queryText : String)
    (retrieved : List ScoredChunk) : QueryResult × Nat :=
  if retrieved.isEmpty then
    ({ answer := notFoundMessage, cited := [] }, 0)
  else
    ({ answer := generate (buildPrompt queryText retrieved), cited := retrieved }, 1)

/-- The response object of the external query engine: generated answer text
plus the retrieved source nodes. -/
structure EngineResponse where
  response : String
  source_nodes : List ScoredChunk
deriving Repr

/-- The Python value returned by `process_query`: the fixed message string
(line 304), the response object (line 306), or `None` (line 309). -/
inductive PyQueryReturn where
  | str (s : String)
  | resp (r : EngineResponse)
  | pynone
deriving Repr

/-- The enhanced query built by `process_query` (src/llama-parse.py lines
284–296): the fixed instruction text with the user question substituted. -/
def enhancedQuery (query : String) : String :=
  "Based on the provided medical documents and guidelines, please answer this specific question:\n\n    QUESTION: "
    ++ query
    ++ "\n\n    IMPORTANT REQUIREMENTS:\n    1. Only use information directly from the provided medical documents\n    2. Focus on the most relevant sections and guidelines\n    3. If the answer cannot be found in the documents, clearly state this\n    4. Cite specific sections or guidelines when possible\n    5. Follow the structured format exactly\n\n    Please ensure all information comes from the provided context and is directly relevant to the question.\n    "

/-- `process_query` (src/llama-parse.py lines 281–309): call the external
query engine on the enhanced query; if it returns normally with no source
nodes, return the fixed message string; if it returns normally with source
nodes, return the response; if it raises, catch, log, and return `None`. -/
def process_query (engine : String → Except String EngineResponse)
    (query : String) : PyQueryReturn :=
  match engine (enhancedQuery query) with
  | .ok r => if r.source_nodes.isEmpty then .str notFoundMessage else .resp r
  | .error _ => .pynone

/-- `process_query_response` (src/llama-parse.py lines 254–279), abstracted
to the lines it prints (`.ok`) or the exception it raises (`.error`).  A
string argument is printed as a system message (lines 256–259); a response
object has its answer and source summary printed (lines 261–279); `None`
fails the `isinstance(response, str)` test and then raises `AttributeError`
at `response.response` (line 262), which propagates to the caller. -/
def process_query_response (r : PyQueryReturn) : Except String (List String) :=
  match r with
  | .str s => .ok ["=== 系統訊息 ===", s]
  | .resp r =>
    .ok ("=== 詳細回答 ===" :: r.response ::
      r.source_nodes.map (fun n => String.mk n.text))
  | .pynone => .error "AttributeError: NoneType object has no attribute response"

/-! ## Working-directory reset (src/rag_process.py lines 10–21) -/

/-- A path, as a list of components relative to the current directory. -/
abbrev DirPath := List String

/-- Whether a path lies in the `./medical_rag` working directory (the
directory itself or anything below it). -/
def underMedicalRag (p : DirPath) : Bool := p.head? == some "medical_rag"

/-- Step 1 of `main` in src/rag_process.py (lines 12–15): if `./medical_rag`
exists, `shutil.rmtree` it — removing the directory and everything below it
and touching nothing else — before the fresh `GraphRAG` instance is
constructed (lines 18–21).  The file system is modelled as the list of
existing paths. -/
def cleanupWorkingDir (paths : List DirPath) : List DirPath :=
  if paths.any underMedicalRag then
    paths.filter (fun p => !underMedicalRag p)
  else paths

/-! ## Concrete collaborators and fixtures used by the witnesses -/

/-- Conversion collaborator for the C4 witness: quota exhaustion on the 2nd
of 5 documents, success elsewhere. -/
def quotaDemoConvert (p : String) : ConvResult :=
  if p = "d2" then .err "You have exceeded the maximum number of pages for today"
  else .docs [['x']]

/-- Conversion collaborator for the C5 witness: a non-quota failure on
document `bad`, success elsewhere. -/
def failDemoConvert (p : String) : ConvResult :=
  if p = "bad" then .err "connection reset" else .docs [['y']]

/-- A generation backend that always raises, for exercising the error path
of `process_query`. -/
def failingEngine : String → Except String EngineResponse :=
  fun _ => .error "boom"

/-- The retrieval candidates of the spec's concrete example, with scores
0.9, 0.75, 0.5. -/
def demoCandidates : List ScoredChunk :=
  [{ ordinal := 0, text := ['a'], score := mkRat 9 10 },
   { ordinal := 1, text := ['b'], score := mkRat 3 4 },
   { ordinal := 2, text := ['c'], score := mkRat 1 2 }]

/-- The file-system contents for the C10 witness: one path inside the
working directory, one outside it. -/
def demoPaths : List DirPath := [["medical_rag", "index"], ["data", "doc.pdf"]]

/-! ## Theorems -/

lemma enumFrom_filter_snd_map_snd (q : Text → Bool) :
    ∀ (l : List Text) (n : Nat),
      (((l.enumFrom n).filter (fun p => q p.2)).map Prod.snd) = l.filter q := by
  intro l
  induction l with
  | nil => intro n; rfl
  | cons a l ih =>
    intro n
    simp only [List.enumFrom_cons, List.filter_cons]
    cases hq : q a <;> simp [hq, ih]

lemma chunkOf_eq_snd (source : String) :
    (Chunk.text ∘ fun p : Nat × Text =>
      ({ source := source, ordinal := p.1, text := p.2 } : Chunk)) = Prod.snd := rfl

lemma chunkOf_eq_fst (source : String) :
    (Chunk.ordinal ∘ fun p : Nat × Text =>
      ({ source := source, ordinal := p.1, text := p.2 } : Chunk)) = Prod.fst := rfl

/-- **C2** For every converted document, `chunk()` returns the surviving
(non-empty) segments in their original order; each chunk's ordinal equals
that segment's position in the original split of the content on the
delimiter (indices assigned by enumeration before blank segments are
discarded), so ordinals are strictly increasing per document. -/
theorem chunk_ordinals_prefilter (source : String) (content : Text) :
    (create_nodes_from_content source content).map Chunk.text =
      (splitOnText sectionDelim content).filter (fun s => !isBlank s) ∧
    (∀ c ∈ create_nodes_from_content source content,
      (splitOnText sectionDelim content)[c.ordinal]? = some c.text) ∧
    ((create_nodes_from_content source content).map Chunk.ordinal).Pairwise (· < ·) := by
  refine ⟨?_, ?_, ?_⟩
  · unfold create_nodes_from_content
    rw [List.map_map, chunkOf_eq_snd, List.enum_eq_enumFrom]
    exact enumFrom_filter_snd_map_snd (fun s => !isBlank s) _ 0
  · intro c hc
    unfold create_nodes_from_content at hc
    simp only [List.mem_map, List.mem_filter] at hc
    obtain ⟨p, ⟨hpmem, -⟩, rfl⟩ := hc
    have hp : (p.1, p.2) ∈ (splitOnText sectionDelim content).enum := by
      simpa using hpmem
    exact List.mk_mem_enum_iff_getElem?.1 hp
  · unfold create_nodes_from_content
    rw [List.map_map, chunkOf_eq_fst]
    have hsub :
        List.Sublist
          (((splitOnText sectionDelim content).enum.filter
            (fun p => !isBlank p.2)).map Prod.fst)
          ((splitOnText sectionDelim content).enum.map Prod.fst) :=
      (List.filter_sublist _).map _
    have hrange :
        ((splitOnText sectionDelim content).enum.map Prod.fst) =
          List.range' 0 (splitOnText sectionDelim content).length := by
      rw [List.enum_eq_enumFrom, List.enumFrom_map_fst]
    exact List.Pairwise.sublist (hrange ▸ hsub) (List.pairwise_lt_range' 0 _)

/-- Witness for C2 at the concrete document `"A\n\n---\n\n  \n\n---\n\nB"`:
the chunk with ordinal 2 and text `"B"` is produced, and its ordinal indeed
addresses position 2 of the original split. -/
theorem chunk_ordinals_prefilter_witness :
    (⟨"f", 2, ['B']⟩ : Chunk) ∈
        create_nodes_from_content "f" ("A\n\n---\n\n  \n\n---\n\nB").toList ∧
      (splitOnText sectionDelim ("A\n\n---\n\n  \n\n---\n\nB").toList)[2]? =
        some ['B'] :=
  ⟨by decide,
    (chunk_ordinals_prefilter "f" ("A\n\n---\n\n  \n\n---\n\nB").toList).2.1
      ⟨"f", 2, ['B']⟩ (by decide)⟩

/-- **C3** `chunk()` splits the content on `"\n\n---\n\n"` and discards every
empty or whitespace-only segment: every produced chunk is non-blank, the
surviving texts are exactly the non-blank segments of the split, and the
content `"A\n\n---\n\n  \n\n---\n\nB"` yields exactly two chunks with texts
`"A"` and `"B"`. -/
theorem chunk_discards_blank_segments (source : String) (content : Text) :
    ((create_nodes_from_content source content).all fun c => !isBlank c.text) = true ∧
    (create_nodes_from_content source content).map Chunk.text =
      (splitOnText sectionDelim content).filter (fun s => !isBlank s) ∧
    create_nodes_from_content "f" ("A\n\n---\n\n  \n\n---\n\nB").toList =
      [{ source := "f", ordinal := 0, text := ['A'] },
       { source := "f", ordinal := 2, text := ['B'] }] := by
  refine ⟨?_, ?_, by decide⟩
  · unfold create_nodes_from_content
    simp only [List.all_eq_true, List.mem_map, List.mem_filter]
    rintro c ⟨p, ⟨-, hq⟩, rfl⟩
    simpa using hq
  · unfold create_nodes_from_content
    rw [List.map_map, chunkOf_eq_snd, List.enum_eq_enumFrom]
    exact enumFrom_filter_snd_map_snd (fun s => !isBlank s) _ 0

lemma fsFind_write_self (fs : FS) (n : String) (v : Text) :
    fsFind (fsWrite fs n v) n = some v := by
  simp [fsWrite, fsFind]

lemma fsFind_write_isSome (fs : FS) (m : String) (v : Text) (n : String)
    (h : (fsFind fs n).isSome) : (fsFind (fsWrite fs m v) n).isSome := by
  simp only [fsWrite, fsFind]
  by_cases hnm : n = m <;> simp [hnm, h]

/-- **C1** If the converted artifact already exists at the expected path,
`ensure_converted` returns a descriptor referencing it without invoking the
conversion collaborator and without touching the file system; calling it
twice on the same source with no intervening deletion performs at most one
external conversion call — exactly one when the artifact was initially
absent — and the second call returns an identical descriptor over an
identical file system. -/
theorem ensure_converted_idempotent (convert : String → List Text) (fs : FS)
    (stem : String) :
    ((fsFind fs (stem ++ ".md")).isSome →
      ensure_converted convert fs stem =
        { descriptor := stem ++ ".md", fs := fs, conversionCalls := 0 }) ∧
    (ensure_converted convert (ensure_converted convert fs stem).fs stem).conversionCalls
        = 0 ∧
    (ensure_converted convert (ensure_converted convert fs stem).fs stem).descriptor =
      (ensure_converted convert fs stem).descriptor ∧
    (ensure_converted convert (ensure_converted convert fs stem).fs stem).fs =
      (ensure_converted convert fs stem).fs ∧
    (ensure_converted convert fs stem).conversionCalls +
        (ensure_converted convert (ensure_converted convert fs stem).fs stem).conversionCalls
        ≤ 1 ∧
    (fsFind fs (stem ++ ".md") = none →
      (ensure_converted convert fs stem).conversionCalls +
        (ensure_converted convert (ensure_converted convert fs stem).fs stem).conversionCalls
        = 1) := by
  cases h : fsFind fs (stem ++ ".md") with
  | some v => simp [ensure_converted, h]
  | none => simp [ensure_converted, h, fsFind_write_self]

/-- Witness for C1: on an empty output directory, two successive
`ensure_converted` calls for source `doc` perform exactly one conversion
call, and once the artifact exists a further call performs none and leaves
the file system untouched. -/
theorem ensure_converted_idempotent_witness :
    fsFind ([] : FS) ("doc" ++ ".md") = none ∧
    (ensure_converted (fun _ => [['x']]) ([] : FS) "doc").conversionCalls +
        (ensure_converted (fun _ => [['x']])
          (ensure_converted (fun _ => [['x']]) ([] : FS) "doc").fs "doc").conversionCalls
        = 1 ∧
    (fsFind (ensure_converted (fun _ => [['x']]) ([] : FS) "doc").fs
        ("doc" ++ ".md")).isSome ∧
    ensure_converted (fun _ => [['x']])
        (ensure_converted (fun _ => [['x']]) ([] : FS) "doc").fs "doc" =
      { descriptor := "doc" ++ ".md",
        fs := (ensure_converted (fun _ => [['x']]) ([] : FS) "doc").fs,
        conversionCalls := 0 } :=
  ⟨rfl,
    (ensure_converted_idempotent (fun _ => [['x']]) [] "doc").2.2.2.2.2 rfl,
    by decide,
    (ensure_converted_idempotent (fun _ => [['x']])
      (ensure_converted (fun _ => [['x']]) ([] : FS) "doc").fs "doc").1 (by decide)⟩

lemma processRemaining_fsFind_mono (convert : String → ConvResult) (fmt : String) :
    ∀ (pdfs : List String) (fs : FS) (n : String),
      (fsFind fs n).isSome →
      (fsFind (processRemaining convert fmt pdfs fs).fs n).isSome := by
  intro pdfs
  induction pdfs with
  | nil => intro fs n h; simpa [processRemaining] using h
  | cons p rest ih =>
    intro fs n h
    cases hc : convert p with
    | docs segs =>
      simp only [processRemaining, hc]
      exact ih _ n (fsFind_write_isSome _ _ _ _ h)
    | err m =>
      cases hq : hasQuotaMsg m with
      | true => simpa [processRemaining, hc, hq] using h
      | false =>
        simp only [processRemaining, hc, hq]
        exact ih _ n h

/-- **C4** When the conversion backend raises the quota condition on
document `k` of the batch, the loop halts: conversion is attempted only for
the documents before `k` and for `k` itself, the quota report fires, the
output files are exactly those of the documents before `k`, and every
document converted before `k` is preserved on disk. -/
theorem quota_halts_remaining_batch (convert : String → ConvResult) (fmt : String)
    (pre : List String) (k : String) (post : List String) (fs : FS) (m : String)
    (hpre : ∀ p ∈ pre, ∃ segs, convert p = .docs segs)
    (hk : convert k = .err m) (hq : hasQuotaMsg m = true) :
    (processRemaining convert fmt (pre ++ k :: post) fs).attempted = pre ++ [k] ∧
    (processRemaining convert fmt (pre ++ k :: post) fs).quotaHalt = true ∧
    (processRemaining convert fmt (pre ++ k :: post) fs).outputs =
      pre.map (fun p => p ++ fmt) ∧
    ∀ p ∈ pre,
      (fsFind (processRemaining convert fmt (pre ++ k :: post) fs).fs (p ++ fmt)).isSome := by
  revert fs hpre
  induction pre with
  | nil =>
    intro fs hpre
    simp [processRemaining, hk, hq]
  | cons p pre' ih =>
    intro fs hpre
    obtain ⟨segs, hp⟩ := hpre p (by simp)
    have hpre' : ∀ q ∈ pre', ∃ s, convert q = .docs s :=
      fun q hq' => hpre q (by simp [hq'])
    have IH := ih (writeConvertedFile fs p fmt segs) hpre'
    simp only [List.cons_append, processRemaining, hp]
    refine ⟨by simp [IH.1], by simp [IH.2.1], by simp [IH.2.2.1], ?_⟩
    intro q hq'
    rcases List.mem_cons.1 hq' with rfl | hq''
    · exact processRemaining_fsFind_mono convert fmt _ _ _
        (by simp [writeConvertedFile, fsFind_write_self])
    · exact IH.2.2.2 q hq''

/-- Witness for C4: with quota exhaustion on the 2nd of 5 documents, exactly
one document is converted, no conversion is attempted for documents 3–5, the
quota report fires, and the first document's output is on disk. -/
theorem quota_halts_remaining_batch_witness :
    (processRemaining quotaDemoConvert ".md" ["d1", "d2", "d3", "d4", "d5"] []).attempted =
      ["d1", "d2"] ∧
    (processRemaining quotaDemoConvert ".md" ["d1", "d2", "d3", "d4", "d5"] []).quotaHalt =
      true ∧
    (processRemaining quotaDemoConvert ".md" ["d1", "d2", "d3", "d4", "d5"] []).outputs =
      ["d1.md"] ∧
    (fsFind (processRemaining quotaDemoConvert ".md" ["d1", "d2", "d3", "d4", "d5"] []).fs
      "d1.md").isSome := by
  have h := quota_halts_remaining_batch quotaDemoConvert ".md" ["d1"] "d2"
    ["d3", "d4", "d5"] [] "You have exceeded the maximum number of pages for today"
    (by intro p hp; simp only [List.mem_singleton] at hp; subst hp
        exact ⟨[['x']], by decide⟩)
    (by decide) (by decide)
  exact ⟨h.1, h.2.1, h.2.2.1, h.2.2.2 "d1" (by simp)⟩

/-- **C5** A conversion failure on one document that is not the quota
condition is caught: that document is recorded as attempted and skipped, and
the batch result on the remaining documents is exactly as if the failing
document had not been there — the enclosing loop is never aborted. -/
theorem conversion_failure_is_isolated (convert : String → ConvResult) (fmt : String)
    (d : String) (rest : List String) (fs : FS) (m : String)
    (hd : convert d = .err m) (hq : hasQuotaMsg m = false) :
    processRemaining convert fmt (d :: rest) fs =
      { processRemaining convert fmt rest fs with
          attempted := d :: (processRemaining convert fmt rest fs).attempted } := by
  simp [processRemaining, hd, hq]

/-- Witness for C5: a non-quota failure on the first of two documents leaves
the processing of the second document fully intact. -/
theorem conversion_failure_is_isolated_witness :
    processRemaining failDemoConvert ".md" ["bad", "ok"] [] =
      { processRemaining failDemoConvert ".md" ["ok"] [] with
          attempted := "bad" :: (processRemaining failDemoConvert ".md" ["ok"] []).attempted } :=
  conversion_failure_is_isolated failDemoConvert ".md" "bad" ["ok"] []
    "connection reset" (by decide) (by decide)

lemma renderSegments_eq_joined_append (segs : List Text) (hne : segs ≠ []) :
    renderSegments segs = joinedByDelim sectionDelim segs ++ sectionDelim := by
  induction segs with
  | nil => exact absurd rfl hne
  | cons s rest ih =>
    cases rest with
    | nil => simp [renderSegments, joinedByDelim]
    | cons s' rest' =>
      have h1 : renderSegments (s :: s' :: rest') =
          s ++ sectionDelim ++ renderSegments (s' :: rest') := rfl
      have h2 : joinedByDelim sectionDelim (s :: s' :: rest') =
          s ++ sectionDelim ++ joinedByDelim sectionDelim (s' :: rest') := rfl
      rw [h1, h2, ih (by simp)]
      simp [List.append_assoc]

/-- Counterexample for C9: the claim says the file body is the segments
joined by the delimiter, with exactly N−1 delimiter occurrences for N
segments; for the two segments `"A"`, `"B"` the written body differs from
the joined form and contains 2 delimiter occurrences, not 1. -/
theorem converted_body_not_joined_cex :
    renderSegments [['A'], ['B']] ≠ joinedByDelim sectionDelim [['A'], ['B']] ∧
    countOcc sectionDelim (renderSegments [['A'], ['B']]) ≠ 2 - 1 := by
  decide

/-- **C9 (amended)** For every successfully converted source document,
exactly one output file named `<stem><format>` is written — holding exactly
the rendered body, and leaving every other file untouched — and its body
equals the segments joined by the delimiter with one additional trailing
delimiter after the last segment (every segment, including the last, is
followed by the delimiter). -/
theorem converted_file_naming_and_body (fs : FS) (stem fmt : String)
    (segs : List Text) :
    fsFind (writeConvertedFile fs stem fmt segs) (stem ++ fmt) =
      some (renderSegments segs) ∧
    (∀ n, n ≠ stem ++ fmt →
      fsFind (writeConvertedFile fs stem fmt segs) n = fsFind fs n) ∧
    (segs ≠ [] →
      renderSegments segs = joinedByDelim sectionDelim segs ++ sectionDelim) ∧
    renderSegments [] = [] := by
  refine ⟨fsFind_write_self _ _ _, ?_, renderSegments_eq_joined_append segs, rfl⟩
  intro n hn
  simp [writeConvertedFile, fsWrite, fsFind, hn]

/-- Witness for C9 (amended) at the two segments `"A"`, `"B"`: the file
`doc.md` holds the rendered body, other names are untouched, and the body is
the joined segments plus a trailing delimiter. -/
theorem converted_file_naming_and_body_witness :
    fsFind (writeConvertedFile [] "doc" ".md" [['A'], ['B']]) ("doc" ++ ".md") =
      some (renderSegments [['A'], ['B']]) ∧
    fsFind (writeConvertedFile [] "doc" ".md" [['A'], ['B']]) "other.md" = none ∧
    renderSegments [['A'], ['B']] =
      joinedByDelim sectionDelim [['A'], ['B']] ++ sectionDelim := by
  have h := converted_file_naming_and_body [] "doc" ".md" [['A'], ['B']]
  refine ⟨h.1, ?_, h.2.2.1 (by decide)⟩
  rw [h.2.1 "other.md" (by decide)]
  rfl

/-- **C6** `compose()` on an empty retrieved-chunk sequence returns the
fixed not-found message with an empty cited-chunk sequence and performs zero
generation calls. -/
theorem compose_empty_short_circuit (generate : String → String)
    (queryText : String) :
    compose generate queryText [] =
      ({ answer := notFoundMessage, cited := [] }, 0) := rfl

/-- **C7** (recording the code bug): when the external query call raises,
`process_query` catches the exception and returns `None` (not a result
carrying a diagnostic answer), and the subsequent
`process_query_response` call on that `None` itself raises `AttributeError`
— the exception reaches the interactive loop instead of a graceful
generation-failure result. -/
theorem process_query_error_returns_none_and_printer_raises :
    process_query failingEngine "any question" = PyQueryReturn.pynone ∧
    process_query_response (process_query failingEngine "any question") =
      .error "AttributeError: NoneType object has no attribute response" :=
  ⟨rfl, rfl⟩

/-- **C8** `retrieve()` requests `top_k` candidates from the index and keeps
exactly those scoring at least the similarity threshold, ordered by
descending score with ties broken by ascending ordinal; on candidates with
scores 0.9, 0.75, 0.5 and threshold 0.7 it returns exactly the first two, in
that order. -/
theorem retrieve_filters_and_sorts (index : String → Nat → List ScoredChunk)
    (queryText : String) (topK : Nat) (threshold : Rat) :
    (∀ c ∈ retrieve index queryText topK threshold, threshold ≤ c.score) ∧
    (retrieve index queryText topK threshold).Sorted retrOrder ∧
    (retrieve index queryText topK threshold).Perm
      ((index queryText topK).filter (fun c => decide (threshold ≤ c.score))) ∧
    retrieve (fun _ _ => demoCandidates) "q" 3 (mkRat 7 10) =
      [{ ordinal := 0, text := ['a'], score := mkRat 9 10 },
       { ordinal := 1, text := ['b'], score := mkRat 3 4 }] := by
  refine ⟨?_, ?_, ?_, by decide⟩
  · intro c hc
    have hmem : c ∈ (index queryText topK).filter
        (fun c => decide (threshold ≤ c.score)) :=
      (List.perm_insertionSort retrOrder _).mem_iff.1 hc
    exact of_decide_eq_true (List.mem_filter.1 hmem).2
  · exact List.sorted_insertionSort retrOrder _
  · exact List.perm_insertionSort retrOrder _

/-- Witness for C8: the 0.9-scoring candidate is returned on the concrete
example, and its score clears the 0.7 threshold. -/
theorem retrieve_filters_and_sorts_witness :
    ({ ordinal := 0, text := ['a'], score := mkRat 9 10 } : ScoredChunk) ∈
        retrieve (fun _ _ => demoCandidates) "q" 3 (mkRat 7 10) ∧
      mkRat 7 10 ≤ ({ ordinal := 0, text := ['a'], score := mkRat 9 10 } : ScoredChunk).score :=
  ⟨by decide,
    (retrieve_filters_and_sorts (fun _ _ => demoCandidates) "q" 3 (mkRat 7 10)).1
      _ (by decide)⟩

/-- **C10** The working-directory reset at the start of `main` removes
everything under `./medical_rag` (and the directory itself) and nothing
else: afterwards no path under `medical_rag` remains, and membership of
every path outside `medical_rag` is unchanged. -/
theorem cleanup_medical_rag_frame (paths : List DirPath) :
    (∀ p ∈ cleanupWorkingDir paths, underMedicalRag p = false) ∧
    (∀ p : DirPath, underMedicalRag p = false →
      (p ∈ cleanupWorkingDir paths ↔ p ∈ paths)) := by
  unfold cleanupWorkingDir
  cases h : paths.any underMedicalRag with
  | true =>
    simp only [if_true]
    constructor
    · intro p hp
      have := List.of_mem_filter hp
      simpa using this
    · intro p hp
      simp [List.mem_filter, hp]
  | false =>
    simp only [Bool.false_eq_true, if_false]
    constructor
    · intro p hp
      simpa using List.any_eq_false.1 h p hp
    · intro p _
      trivial

/-- Witness for C10: the corpus file `data/doc.pdf` is outside
`medical_rag`, and the reset leaves its membership unchanged. -/
theorem cleanup_medical_rag_frame_witness :
    underMedicalRag ["data", "doc.pdf"] = false ∧
    (["data", "doc.pdf"] ∈ cleanupWorkingDir demoPaths ↔
      ["data", "doc.pdf"] ∈ demoPaths) :=
  ⟨by decide, (cleanup_medical_rag_frame demoPaths).2 ["data", "doc.pdf"] (by decide)⟩
